import Mathlib

/-
  Verification development for the object-storage client repository.

  The repository's single source file, `src/S3Client.py`, implements an
  `ObjectStorageClient` backend on top of the boto3 S3 SDK.  The base module
  `ObjectStorageClient.py` (imported with a star import) is not part of the
  sources; the value types it provides (`ContainerInfo`, `ObjectInfo`,
  `SubdirInfo`) and the `use_container` default-container mechanism are
  modelled from the spec (sections 3 and 4.1).

  The boto3/S3 backend is an external collaborator.  It is modelled as a pure
  state machine over an account state (`S3State`), following the AWS S3
  semantics the source relies on (the API reference cited at the top of
  `S3Client.py`): `create_bucket` on an existing own bucket raises
  `BucketAlreadyOwnedByYou`; `delete_bucket` raises `NoSuchBucket` for an
  absent bucket and `BucketNotEmpty` for a non-empty one; `head_object` /
  `copy_object` report a missing key; `list_objects_v2` returns at most one
  page (`MaxKeys`) of keys, rolled up into `Contents` and `CommonPrefixes`
  when a delimiter is given.  Environment failures that do not depend on the
  account state (permission denied, transient network faults, invalid names)
  are modelled by an optional injected fault on each wire call.

  Python `try/except` becomes a `match` on `Except`; a Python method without
  a `try` that can receive an SDK exception returns `Except` itself, so the
  exception propagates to the caller.  Python `None` inside a returned list
  is kept faithful by an explicit constructor (`ListingEntry.pyNone`).
-/

namespace S3Spec

/-- Modelled from the spec: `ContainerInfo` of the missing
`ObjectStorageClient.py` — name, optional creation date, optional region
(spec section 3); the source constructs it positionally as
`ContainerInfo(name, None, None)`. -/
structure ContainerInfo where
  name : String
  creationDate : Option String
  region : Option String
deriving DecidableEq

/-- Modelled from the spec: `ObjectInfo` of the missing
`ObjectStorageClient.py` — name, size in bytes, etag/hash, content type,
metadata mapping (spec section 3, in the spec's attribute order, which
matches the source's positional construction
`ObjectInfo(o['Key'], o['Size'], o['ETag'], None, None)`). -/
structure ObjectInfo where
  name : String
  bytes : Option Nat
  hash : Option String
  content_type : Option String
  metadata : Option (List (String × String))
deriving DecidableEq

/-- Modelled from the spec: `SubdirInfo` of the missing
`ObjectStorageClient.py` — a common-prefix grouping from delimiter listing.
Field `pfx` renders the source attribute named after the listing's common
prefix string. -/
structure SubdirInfo where
  pfx : String
deriving DecidableEq

/-- An element of the Python list returned by `object_list`
(`list[ObjectInfo|SubdirInfo]`).  `pyNone` is the Python `None` that
`object_info` can return and that the enrichment loop stores into the list
unchecked. -/
inductive ListingEntry where
  | obj (o : ObjectInfo)
  | subdir (d : SubdirInfo)
  | pyNone
deriving DecidableEq

/-- A stored S3 object: body bytes, content type, raw ETag (as the wire
returns it), and user metadata. -/
structure S3Object where
  body : List Nat
  content_type : Option String
  etag : String
  metadata : List (String × String)
deriving DecidableEq

/-- A bucket: association list from object key to object, in the backend's
listing order. -/
structure Bucket where
  objects : List (String × S3Object)
deriving DecidableEq

/-- The whole account visible to the client's credentials. -/
structure S3State where
  buckets : List (String × Bucket)
deriving DecidableEq

/-- The S3 error conditions relevant to the source's calls. -/
inductive S3Error where
  | bucketAlreadyOwnedByYou
  | noSuchBucket
  | bucketNotEmpty
  | noSuchKey
  | accessDenied
  | invalidBucketName
  | transientFailure
deriving DecidableEq

/-- First-match association-list lookup (dictionary read). -/
def assocLookup {α : Type} (l : List (String × α)) (k : String) : Option α :=
  match l with
  | [] => none
  | (k2, v) :: t => if k2 = k then some v else assocLookup t k

/-- Association-list update: replace the binding of `k` (append if absent). -/
def assocSet {α : Type} : List (String × α) → String → α → List (String × α)
  | [], k, v => [(k, v)]
  | (k2, v2) :: t, k, v =>
    if k2 = k then (k, v) :: assocSet t k v else (k2, v2) :: assocSet t k v

/-- Association-list removal of every binding of `k`. -/
def assocErase {α : Type} : List (String × α) → String → List (String × α)
  | [], _ => []
  | (k2, v2) :: t, k =>
    if k2 = k then assocErase t k else (k2, v2) :: assocErase t k

/-- boto3 `create_bucket(Bucket=name, CreateBucketConfiguration=...)`:
fails with `BucketAlreadyOwnedByYou` when the name is already taken by this
owner, otherwise creates an empty bucket.  The location constraint does not
affect the modelled state.  `fault` injects an environment failure
(permission denied, invalid name, transient fault). -/
def create_bucket (s : S3State) (name : String) (loc : String)
    (fault : Option S3Error) : Except S3Error S3State :=
  match fault with
  | some e => .error e
  | none =>
    match assocLookup s.buckets name with
    | some _ => .error .bucketAlreadyOwnedByYou
    | none =>
      let _ := loc
      .ok ⟨s.buckets ++ [(name, ⟨[]⟩)]⟩

/-- boto3 `delete_bucket(Bucket=name)`: `NoSuchBucket` when absent,
`BucketNotEmpty` when the bucket still holds objects, otherwise removes the
bucket. -/
def delete_bucket (s : S3State) (name : String)
    (fault : Option S3Error) : Except S3Error S3State :=
  match fault with
  | some e => .error e
  | none =>
    match assocLookup s.buckets name with
    | none => .error .noSuchBucket
    | some b =>
      match b.objects with
      | [] => .ok ⟨assocErase s.buckets name⟩
      | _ :: _ => .error .bucketNotEmpty

/-- boto3 `list_buckets()['Buckets']`: the account's bucket names, one page
as the source consumes it. -/
def list_buckets (s : S3State) : List String :=
  s.buckets.map (fun p => p.1)

/-- boto3 `head_object(Bucket=..., Key=...)` as the source reads it: HTTP
status code plus the object when the status is 200. -/
def head_object (s : S3State) (bucket : String) (key : String)
    (fault : Option S3Error) : Nat × Option S3Object :=
  match fault with
  | some _ => (500, none)
  | none =>
    match assocLookup s.buckets bucket with
    | none => (404, none)
    | some b =>
      match assocLookup b.objects key with
      | none => (404, none)
      | some o => (200, some o)

/-- boto3 `copy_object(..., MetadataDirective='REPLACE')`: copies the source
object to the destination key with its metadata replaced by `meta`, leaving
the body (and stored ETag) unchanged; errors when the source bucket, source
key or destination bucket is missing.  Returns the HTTP status code and the
new state. -/
def copy_object (s : S3State) (destBucket : String) (destKey : String)
    (srcBucket : String) (srcKey : String) (meta : List (String × String))
    (fault : Option S3Error) : Except S3Error (Nat × S3State) :=
  match fault with
  | some e => .error e
  | none =>
    match assocLookup s.buckets srcBucket with
    | none => .error .noSuchBucket
    | some sb =>
      match assocLookup sb.objects srcKey with
      | none => .error .noSuchKey
      | some o =>
        match assocLookup s.buckets destBucket with
        | none => .error .noSuchBucket
        | some db =>
          let newObj : S3Object := ⟨o.body, o.content_type, o.etag, meta⟩
          .ok (200, ⟨assocSet s.buckets destBucket ⟨assocSet db.objects destKey newObj⟩⟩)

/-- A raw rolled-up listing item, in the order the backend pages them:
either a key with its object, or a common prefix produced by the
delimiter. -/
inductive RawEntry where
  | content (k : String) (o : S3Object)
  | comPfx (p : String)
deriving DecidableEq

/-- Whether a key passes the listing's optional `Prefix` filter (the source
sends no `Prefix` argument when the parameter is `None` or empty, so `none`
matches every key). -/
def matchesPfx (pf : Option String) (k : String) : Bool :=
  match pf with
  | none => true
  | some p => k.startsWith p

/-- The effective prefix string used for delimiter roll-up. -/
def pfString (pf : Option String) : String :=
  match pf with
  | none => ""
  | some p => p

/-- S3 delimiter roll-up of one key: when the delimiter occurs in the key
after the prefix, the key is grouped under the common prefix that ends at
the first such occurrence; otherwise the key is listed directly. -/
def commonPrefixOf (p : String) (dl : String) (k : String) : Option String :=
  match (k.drop p.length).splitOn dl with
  | [] => none
  | [_] => none
  | first :: _ => some (p ++ first ++ dl)

/-- Roll a bucket's keys (in backend order) into the page sequence of
contents and common prefixes, deduplicating common prefixes; `seen` carries
the prefixes already emitted. -/
def rollUp (pf : Option String) (d : Option String) (seen : List String) :
    List (String × S3Object) → List RawEntry
  | [] => []
  | (k, o) :: rest =>
    if matchesPfx pf k then
      match d with
      | none => .content k o :: rollUp pf d seen rest
      | some dl =>
        match commonPrefixOf (pfString pf) dl k with
        | none => .content k o :: rollUp pf d seen rest
        | some cp =>
          if seen.contains cp then rollUp pf d seen rest
          else .comPfx cp :: rollUp pf d (cp :: seen) rest
    else rollUp pf d seen rest

/-- The parts of a `list_objects_v2` response the source reads. -/
structure ListObjectsResponse where
  httpStatusCode : Nat
  contents : List (String × S3Object)
  commonPrefixes : List String
deriving DecidableEq

/-- Extract the content items of a page. -/
def pageContents (l : List RawEntry) : List (String × S3Object) :=
  l.filterMap (fun e =>
    match e with
    | .content k o => some (k, o)
    | .comPfx _ => none)

/-- Extract the common prefixes of a page. -/
def pageComPfxs (l : List RawEntry) : List String :=
  l.filterMap (fun e =>
    match e with
    | .content _ _ => none
    | .comPfx p => some p)

/-- boto3 `list_objects_v2`: one page of at most `pageSize` items (`MaxKeys`
counts contents and common prefixes together).  The source never sends a
continuation token, so only the first page exists here.  A missing bucket or
an injected fault yields a non-200 status with empty result arrays. -/
def list_objects_v2 (s : S3State) (bucket : String) (pf : Option String)
    (d : Option String) (pageSize : Nat) (fault : Option S3Error) :
    ListObjectsResponse :=
  match fault with
  | some _ => ⟨500, [], []⟩
  | none =>
    match assocLookup s.buckets bucket with
    | none => ⟨404, [], []⟩
    | some b =>
      let page := (rollUp pf d [] b.objects).take pageSize
      ⟨200, pageContents page, pageComPfxs page⟩

/-- Python `str.replace('"', '')` applied to an ETag. -/
def stripQuotes (s : String) : String :=
  (s.data.filter (fun ch => ch ≠ '"')).asString

/-- The client state: the boto3 session's configured `location`, plus the
default container name.  Modelled from the spec: the optional default
container is selected via `use_container` of the missing
`ObjectStorageClient.py` and read by the source as `self.container_name`. -/
structure S3Client where
  location : String
  container_name : String
deriving DecidableEq

/-- Modelled from the spec: `use_container(name)` of the missing
`ObjectStorageClient.py` selects the default container. -/
def use_container (c : S3Client) (name : String) : S3Client :=
  ⟨c.location, name⟩

/-- `S3Client.container_create`: one `create_bucket` call inside a blanket
`try/except` — `True` on success, `False` on every exception. -/
def container_create (c : S3Client) (s : S3State) (container : String)
    (fault : Option S3Error) : Bool × S3State :=
  match create_bucket s container c.location fault with
  | .ok s2 => (true, s2)
  | .error _ => (false, s)

/-- `S3Client.container_list`: one `list_buckets` call mapped to
`ContainerInfo(name, None, None)`.  The `pf` argument renders the source's
optional name filter parameter, which the body never uses. -/
def container_list (c : S3Client) (s : S3State) (pf : Option String) :
    List ContainerInfo :=
  let _ := c
  let _ := pf
  (list_buckets s).map (fun n => ⟨n, none, none⟩)

/-- `S3Client.container_delete`: one `delete_bucket` call inside a blanket
`try/except` — `True` on success, `False` on every exception.  The `force`
parameter is accepted but never read. -/
def container_delete (c : S3Client) (s : S3State) (container : String)
    (force : Bool) (fault : Option S3Error) : Bool × S3State :=
  let _ := c
  let _ := force
  match delete_bucket s container fault with
  | .ok s2 => (true, s2)
  | .error _ => (false, s)

/-- `S3Client.object_info`: `head_object` against `self.container_name`;
`ObjectInfo` on status 200, Python `None` otherwise. -/
def object_info (c : S3Client) (s : S3State) (object_name : String)
    (fault : Option S3Error) : Option ObjectInfo :=
  match head_object s c.container_name object_name fault with
  | (200, some o) =>
    some ⟨object_name, some o.body.length, some (stripQuotes o.etag),
      o.content_type, some o.metadata⟩
  | _ => none

/-- `S3Client.object_replace_metadata`: a same-location `copy_object` with
`MetadataDirective='REPLACE'` against `self.container_name`; no `try`, so an
SDK exception propagates; otherwise returns whether the status was 200. -/
def object_replace_metadata (c : S3Client) (s : S3State)
    (object_name : String) (meta : List (String × String))
    (fault : Option S3Error) : Except S3Error (Bool × S3State) :=
  match copy_object s c.container_name object_name c.container_name
      object_name meta fault with
  | .error e => .error e
  | .ok (st, s2) => .ok (st == 200, s2)

/-- Lift `object_info`'s Python return value into a listing slot. -/
def ofObjectInfoOpt : Option ObjectInfo → ListingEntry
  | some o => .obj o
  | none => .pyNone

/-- `S3Client.object_list`: defaults the container to
`self.container_name`, issues one `list_objects_v2` call; on status 200
builds `ObjectInfo(Key, Size, ETag, None, None)` entries and `SubdirInfo`
entries, optionally replaces each object entry in place with
`self.object_info(entry.name)`, appends the subdir entries and returns the
list; on any other status returns the empty list.  `listFault` and
`headFault` inject environment failures into the listing call and the
per-object head calls. -/
def object_list (c : S3Client) (s : S3State) (fetch_metadata : Bool)
    (pf : Option String) (d : Option String) (container_name : Option String)
    (pageSize : Nat) (listFault : Option S3Error)
    (headFault : Option S3Error) : List ListingEntry :=
  let cn := match container_name with
    | none => c.container_name
    | some n => n
  let res := list_objects_v2 s cn pf d pageSize listFault
  if res.httpStatusCode = 200 then
    let objects := res.contents.map (fun ko =>
      ObjectInfo.mk ko.1 (some ko.2.body.length) (some ko.2.etag) none none)
    let subdirs := res.commonPrefixes.map (fun p => SubdirInfo.mk p)
    let objects2 :=
      if fetch_metadata then
        objects.map (fun oi => ofObjectInfoOpt (object_info c s oi.name headFault))
      else
        objects.map ListingEntry.obj
    objects2 ++ subdirs.map ListingEntry.subdir
  else
    []

/-- The name carried by a listing slot: the object key, the subdir's common
prefix, or nothing for a Python `None` slot. -/
def entryName : ListingEntry → Option String
  | .obj o => some o.name
  | .subdir sd => some sd.pfx
  | .pyNone => none

/-- One step of the source's metadata-enrichment loop
(`objects[i] = self.object_info(objects[i].name)`), as a function on a
listing slot. -/
def enrichStep (c : S3Client) (s : S3State) : ListingEntry → ListingEntry
  | .obj o => ofObjectInfoOpt (object_info c s o.name none)
  | .subdir sd => .subdir sd
  | .pyNone => .pyNone

/-- Whether a listing slot is a subdirectory (common-prefix) entry. -/
def isSubdirEntry : ListingEntry → Bool
  | .subdir _ => true
  | _ => false

/-- The spec's "names start with p" predicate, stated over the character
lists so that it evaluates in the kernel. -/
def nameStartsWith (n : String) (p : String) : Bool :=
  p.data.isPrefixOf n.data

/-! Concrete fixtures used by counterexamples and witnesses. -/

/-- A small object: two bytes, ETag `e1`, one metadata pair `m=va`. -/
def obA : S3Object := ⟨[0, 1], none, "e1", [("m", "va")]⟩

/-- A second object with the same key shape: three bytes, ETag `e2`,
metadata pair `m=vb`. -/
def obB : S3Object := ⟨[0, 1, 2], none, "e2", [("m", "vb")]⟩

/-- Account with two buckets `a` and `b`, both holding a key `k` but with
different bodies, ETags and metadata. -/
def st8 : S3State := ⟨[("a", ⟨[("k", obA)]⟩), ("b", ⟨[("k", obB)]⟩)]⟩

/-- Client whose selected (default) container is `a`. -/
def cl8 : S3Client := ⟨"us-west-2", "a"⟩

/-- A bucket holding three objects. -/
def bkt3 : Bucket := ⟨[("o1", obA), ("o2", obA), ("o3", obA)]⟩

/-- Account with one container `c` holding three objects. -/
def st3 : S3State := ⟨[("c", bkt3)]⟩

/-- Client whose selected container is `c`. -/
def cl3 : S3Client := ⟨"us-west-2", "c"⟩

/-- A bucket holding a single object `k`. -/
def bkt5 : Bucket := ⟨[("k", obA)]⟩

/-- Account with one container `c` holding the single object `k`. -/
def st5 : S3State := ⟨[("c", bkt5)]⟩

/-- Account with two empty buckets `alpha` and `beta`. -/
def stC6 : S3State := ⟨[("alpha", ⟨[]⟩), ("beta", ⟨[]⟩)]⟩

/-- Account where the selected container `a` holds only key `k` while
container `b` holds only key `j` — so `j` is listed from `b` but absent
from `a`. -/
def st7 : S3State := ⟨[("a", ⟨[("k", obA)]⟩), ("b", ⟨[("j", obB)]⟩)]⟩

/-- Client whose selected (default) container is `a`, used against `st7`. -/
def cl7 : S3Client := ⟨"us-west-2", "a"⟩

/-! Helper lemmas about the association-list primitives and the listing
roll-up. -/

theorem assocSet_lookup_self {α : Type} (l : List (String × α)) (k : String)
    (v : α) : assocLookup (assocSet l k v) k = some v := by
  induction l with
  | nil => simp [assocSet, assocLookup]
  | cons p t ih =>
    obtain ⟨k2, v2⟩ := p
    by_cases h : k2 = k
    · simp [assocSet, h, assocLookup]
    · simp [assocSet, h, assocLookup, ih]

theorem assocSet_lookup_other {α : Type} (l : List (String × α))
    (k k' : String) (v : α) (h : k' ≠ k) :
    assocLookup (assocSet l k v) k' = assocLookup l k' := by
  induction l with
  | nil =>
    simp only [assocSet, assocLookup]
    rw [if_neg (fun he => h he.symm)]
  | cons p t ih =>
    obtain ⟨k2, v2⟩ := p
    by_cases h2 : k2 = k
    · subst h2
      simp only [assocSet, if_pos rfl, assocLookup]
      rw [if_neg (fun he => h he.symm), if_neg (fun he => h he.symm), ih]
    · simp only [assocSet, if_neg h2, assocLookup]
      by_cases h3 : k2 = k'
      · rw [if_pos h3, if_pos h3]
      · rw [if_neg h3, if_neg h3, ih]

theorem mem_assocLookup_isSome {α : Type} (l : List (String × α)) (k : String)
    (o : α) (h : (k, o) ∈ l) : ∃ v, assocLookup l k = some v := by
  induction l with
  | nil => simp at h
  | cons p t ih =>
    obtain ⟨k2, v2⟩ := p
    rcases List.mem_cons.mp h with h1 | h1
    · rw [Prod.mk.injEq] at h1
      exact ⟨v2, by simp [assocLookup, h1.1.symm]⟩
    · by_cases hk : k2 = k
      · exact ⟨v2, by simp [assocLookup, hk]⟩
      · obtain ⟨v, hv⟩ := ih h1
        exact ⟨v, by simp [assocLookup, hk, hv]⟩

theorem map_congr_mem {α β : Type} (l : List α) (f g : α → β)
    (h : ∀ a ∈ l, f a = g a) : l.map f = l.map g := by
  induction l with
  | nil => rfl
  | cons a t ih =>
    simp only [List.map_cons]
    rw [h a (List.mem_cons_self a t), ih (fun x hx => h x (List.mem_cons_of_mem a hx))]

theorem rollUp_content_mem (pf d : Option String) :
    ∀ (seen : List String) (l : List (String × S3Object)) (k : String)
      (o : S3Object), RawEntry.content k o ∈ rollUp pf d seen l → (k, o) ∈ l := by
  intro seen l
  induction l generalizing seen with
  | nil => intro k o h; simp [rollUp] at h
  | cons p rest ih =>
    intro k o h
    obtain ⟨k2, o2⟩ := p
    simp only [rollUp] at h
    split at h
    · split at h
      · rcases List.mem_cons.mp h with h1 | h1
        · obtain ⟨hk, ho⟩ := RawEntry.content.inj h1
          subst hk; subst ho
          exact List.mem_cons_self _ _
        · exact List.mem_cons_of_mem _ (ih seen k o h1)
      · split at h
        · rcases List.mem_cons.mp h with h1 | h1
          · obtain ⟨hk, ho⟩ := RawEntry.content.inj h1
            subst hk; subst ho
            exact List.mem_cons_self _ _
          · exact List.mem_cons_of_mem _ (ih seen k o h1)
        · split at h
          · exact List.mem_cons_of_mem _ (ih seen k o h)
          · rcases List.mem_cons.mp h with h1 | h1
            · exact absurd h1 (by simp)
            · exact List.mem_cons_of_mem _ (ih _ k o h1)
    · exact List.mem_cons_of_mem _ (ih seen k o h)

theorem rollUp_none_none (seen : List String) (l : List (String × S3Object)) :
    rollUp none none seen l = l.map (fun p => RawEntry.content p.1 p.2) := by
  induction l generalizing seen with
  | nil => rfl
  | cons p rest ih => simp [rollUp, matchesPfx, ih]

theorem pageContents_map_content (l : List (String × S3Object)) :
    pageContents (l.map (fun p => RawEntry.content p.1 p.2)) = l := by
  induction l with
  | nil => rfl
  | cons p rest ih => simp [pageContents, List.filterMap_cons] at ih ⊢; exact ih

theorem pageComPfxs_map_content (l : List (String × S3Object)) :
    pageComPfxs (l.map (fun p => RawEntry.content p.1 p.2)) = [] := by
  induction l with
  | nil => rfl
  | cons p rest ih =>
    simp only [List.map_cons, pageComPfxs, List.filterMap_cons] at ih ⊢
    exact ih

theorem pageContents_mem (l : List RawEntry) (k : String) (o : S3Object)
    (h : (k, o) ∈ pageContents l) : RawEntry.content k o ∈ l := by
  simp only [pageContents, List.mem_filterMap] at h
  obtain ⟨e, he, hfe⟩ := h
  cases e with
  | content k2 o2 =>
    simp only [Option.some.injEq, Prod.mk.injEq] at hfe
    exact hfe.1 ▸ hfe.2 ▸ he
  | comPfx p => simp at hfe

theorem contents_key_lookup (b : Bucket) (pf d : Option String) (ps : Nat)
    (k : String) (o : S3Object)
    (h : (k, o) ∈ pageContents ((rollUp pf d [] b.objects).take ps)) :
    ∃ v, assocLookup b.objects k = some v := by
  have h1 := pageContents_mem _ _ _ h
  have h2 : RawEntry.content k o ∈ rollUp pf d [] b.objects :=
    List.take_subset _ _ h1
  exact mem_assocLookup_isSome _ _ _ (rollUp_content_mem pf d [] b.objects k o h2)

/-! Claim theorems. -/

/-- C1: `container_create` does return `False` when the container already
exists, but its blanket `except` collapses every other failure (permission
denied, invalid name, transient fault) to the very same `False`, so — against
the claim — those failures are not distinguishable from the already-exists
outcome.  This records the code's behavior: every injected backend error
yields `False` with the state unchanged, and an already-taken name also
yields `False`. -/
theorem containerCreate_collapses_all_failures (c : S3Client) (s : S3State)
    (n : String) (e : S3Error) :
    container_create c s n (some e) = (false, s) ∧
    ((assocLookup s.buckets n).isSome → (container_create c s n none).1 = false) := by
  constructor
  · rfl
  · intro h
    cases hl : assocLookup s.buckets n with
    | none => rw [hl] at h; simp at h
    | some b => simp [container_create, create_bucket, hl]

/-- C1 witness: with a taken name, a permission-denied create and an
already-exists create both come back as the same plain `False`. -/
theorem containerCreate_collapses_all_failures_witness :
    container_create ⟨"us-west-2", "a"⟩ ⟨[("dup", ⟨[]⟩)]⟩ "dup"
        (some S3Error.accessDenied) = (false, ⟨[("dup", ⟨[]⟩)]⟩) ∧
    (container_create ⟨"us-west-2", "a"⟩ ⟨[("dup", ⟨[]⟩)]⟩ "dup" none).1 = false := by
  have h := containerCreate_collapses_all_failures ⟨"us-west-2", "a"⟩
    ⟨[("dup", ⟨[]⟩)]⟩ "dup" S3Error.accessDenied
  exact ⟨h.1, h.2 (by decide)⟩

/-- C2: the code contradicts the claim (and its own docstring, which promises
`True` if the container "was deleted or does not exist"): `delete_bucket` on
an absent container raises `NoSuchBucket`, the blanket `except` catches it,
and `container_delete` returns `False`, not `True`. -/
theorem containerDelete_absent_returns_false (c : S3Client) (s : S3State)
    (n : String) (force : Bool) (h : assocLookup s.buckets n = none) :
    container_delete c s n force none = (false, s) := by
  simp [container_delete, delete_bucket, h]

/-- C2 witness: deleting a container from an empty account returns `False`. -/
theorem containerDelete_absent_returns_false_witness :
    container_delete ⟨"us-west-2", "a"⟩ ⟨[]⟩ "ghost" false none = (false, ⟨[]⟩) :=
  containerDelete_absent_returns_false ⟨"us-west-2", "a"⟩ ⟨[]⟩ "ghost" false
    (by decide)

/-- C3: the code ignores its `force` parameter entirely: on a non-empty
container, `container_delete` with `force = true` still receives
`BucketNotEmpty` from the single `delete_bucket` call, catches it, and
returns `False` with the state unchanged — no object is drained and the
container remains, against the claim's `force=true` contract (and the
method's own docstring).  With `force = false` the failure is the same bare
`False`, not a `NotEmpty` error. -/
theorem containerDelete_force_ignored (c : S3Client) (s : S3State)
    (n : String) (b : Bucket) (hb : assocLookup s.buckets n = some b)
    (hne : b.objects ≠ []) :
    container_delete c s n true none = (false, s) ∧
    container_delete c s n false none = (false, s) := by
  obtain ⟨objs⟩ := b
  cases objs with
  | nil => exact absurd rfl hne
  | cons x t =>
    constructor <;> simp [container_delete, delete_bucket, hb]

/-- C3 witness: a container with three objects, force-deleted, comes back
`False` and still holds its three objects. -/
theorem containerDelete_force_ignored_witness :
    container_delete cl3 st3 "c" true none = (false, st3) ∧
    container_delete cl3 st3 "c" false none = (false, st3) :=
  containerDelete_force_ignored cl3 st3 "c" bkt3 (by decide) (by decide)

/-- C4 counterexample: `object_list` sends no continuation token, so with
three objects behind a page size of two it returns two entries, not the
claimed three. -/
theorem objectList_pagination_counterexample :
    ¬ ((object_list cl3 st3 false none none none 2 none none).length = 3) := by
  decide

/-- C4 amended: `object_list` issues a single `list_objects_v2` call and
returns only the first page — the first `min N pageSize` objects of the
container, in backend order, one entry per object (so exactly N entries with
no duplicates and no gaps only when N fits in one page; beyond the page size
the remainder is silently dropped). -/
theorem objectList_single_page (c : S3Client) (s : S3State) (b : Bucket)
    (ps : Nat) (hb : assocLookup s.buckets c.container_name = some b) :
    (object_list c s false none none none ps none none).map entryName
      = (b.objects.map (fun p => some p.1)).take ps := by
  simp only [object_list, list_objects_v2, hb, rollUp_none_none]
  rw [← List.map_take]
  simp only [pageContents_map_content, pageComPfxs_map_content]
  simp only [if_true, Bool.false_eq_true, if_false, List.map_nil,
    List.append_nil, List.map_map, ← List.map_take]
  rfl

/-- C4 witness: with three objects and a page size of five, the listing is
exactly the three keys in order. -/
theorem objectList_single_page_witness :
    (object_list cl3 st3 false none none none 5 none none).map entryName
      = (bkt3.objects.map (fun p => some p.1)).take 5 :=
  objectList_single_page cl3 st3 bkt3 5 (by decide)

/-- C6 counterexample: `container_list` ignores its name-filter argument;
with buckets `alpha` and `beta` and filter `"a"` it returns both names, and
`beta` does not start with `a`, so the result is not "exactly the containers
whose names start with the given filter". -/
theorem containerList_prefix_counterexample :
    ¬ ((container_list ⟨"us-west-2", "alpha"⟩ stC6 (some "a")).map
          (fun ci => ci.name)
        = (list_buckets stC6).filter (fun n => nameStartsWith n "a")) := by
  decide

/-- C6 amended: `container_list` returns one `ContainerInfo` per bucket of
the account, from a single unpaginated `list_buckets` call, in backend
order; the name-filter argument has no effect on the result. -/
theorem containerList_ignores_filter (c : S3Client) (s : S3State)
    (p1 p2 : Option String) :
    container_list c s p1 = container_list c s p2 ∧
    (container_list c s p1).map (fun ci => ci.name) = list_buckets s := by
  constructor
  · rfl
  · simp [container_list, list_buckets, List.map_map, Function.comp]

/-- C9: when the listing response carries a non-200 status (any injected
backend fault), `object_list` returns `[]` — exactly what it returns for a
successful listing of an empty container, so a failed listing is
indistinguishable from an empty one. -/
theorem objectList_failure_indistinguishable (c : S3Client) (s : S3State)
    (fm : Bool) (pf d : Option String) (n : String) (ps : Nat) (e : S3Error)
    (hf : Option S3Error) :
    object_list c s fm pf d (some n) ps (some e) hf = [] ∧
    (assocLookup s.buckets n = some (Bucket.mk []) →
      object_list c s fm pf d (some n) ps none hf = []) := by
  constructor
  · simp [object_list, list_objects_v2]
  · intro h
    cases fm <;>
      simp [object_list, list_objects_v2, h, rollUp, pageContents, pageComPfxs]

/-- C9 witness: a transient fault and an empty container both produce `[]`. -/
theorem objectList_failure_indistinguishable_witness :
    object_list ⟨"us-west-2", "a"⟩ ⟨[("a", ⟨[]⟩)]⟩ false none none (some "a") 5
        (some S3Error.transientFailure) none = [] ∧
    object_list ⟨"us-west-2", "a"⟩ ⟨[("a", ⟨[]⟩)]⟩ false none none (some "a") 5
        none none = [] := by
  have h := objectList_failure_indistinguishable ⟨"us-west-2", "a"⟩
    ⟨[("a", ⟨[]⟩)]⟩ false none none "a" 5 S3Error.transientFailure none
  exact ⟨h.1, h.2 (by decide)⟩

/-- C10: every `object_list` result splits as object entries (or `None`
slots) followed by subdirectory entries — the code builds the object list,
then appends all `SubdirInfo` entries at the end, for every input state and
argument combination. -/
theorem objectList_objects_before_subdirs (c : S3Client) (s : S3State)
    (fm : Bool) (pf d cn : Option String) (ps : Nat) (lf hf : Option S3Error) :
    ∃ xs ys, object_list c s fm pf d cn ps lf hf = xs ++ ys ∧
      (∀ e ∈ xs, isSubdirEntry e = false) ∧
      (∀ e ∈ ys, isSubdirEntry e = true) := by
  simp only [object_list]
  split
  · refine ⟨_, _, rfl, ?_, ?_⟩
    · intro e he
      cases fm with
      | false =>
        simp only [Bool.false_eq_true, if_false, List.mem_map] at he
        obtain ⟨oi, _, hoe⟩ := he
        rw [← hoe]; rfl
      | true =>
        simp only [if_true, List.mem_map] at he
        obtain ⟨oi, _, hoe⟩ := he
        rw [← hoe]
        cases hoi : object_info c s oi.name hf <;> simp [ofObjectInfoOpt, isSubdirEntry]
    · intro e he
      simp only [List.mem_map] at he
      obtain ⟨sd, _, hse⟩ := he
      rw [← hse]; rfl
  · exact ⟨[], [], rfl, by simp, by simp⟩

/-- C5: on an existing object, `object_replace_metadata` succeeds and the
resulting state holds the object with its body (and content type and ETag)
unchanged and its metadata set to exactly the given mapping, while every
other key of the container and every other container are untouched; on a
missing object the same-location `copy_object` raises `NoSuchKey`, which
propagates (no `try`), so the operation fails rather than silently
succeeding. -/
theorem objectReplaceMetadata_contract (c : S3Client) (s : S3State)
    (name : String) (meta : List (String × String)) (b : Bucket)
    (hb : assocLookup s.buckets c.container_name = some b) :
    (∀ o, assocLookup b.objects name = some o →
      ∃ s2, object_replace_metadata c s name meta none = .ok (true, s2) ∧
        ∃ b2, assocLookup s2.buckets c.container_name = some b2 ∧
          assocLookup b2.objects name
            = some ⟨o.body, o.content_type, o.etag, meta⟩ ∧
          (∀ k, k ≠ name → assocLookup b2.objects k = assocLookup b.objects k) ∧
          (∀ bn, bn ≠ c.container_name →
            assocLookup s2.buckets bn = assocLookup s.buckets bn)) ∧
    (assocLookup b.objects name = none →
      object_replace_metadata c s name meta none = .error S3Error.noSuchKey) := by
  constructor
  · intro o ho
    refine ⟨⟨assocSet s.buckets c.container_name
        ⟨assocSet b.objects name ⟨o.body, o.content_type, o.etag, meta⟩⟩⟩, ?_, ?_⟩
    · simp [object_replace_metadata, copy_object, hb, ho]
    · refine ⟨⟨assocSet b.objects name ⟨o.body, o.content_type, o.etag, meta⟩⟩,
        ?_, ?_, ?_, ?_⟩
      · exact assocSet_lookup_self s.buckets c.container_name _
      · exact assocSet_lookup_self b.objects name _
      · intro k hk
        exact assocSet_lookup_other b.objects name k _ hk
      · intro bn hbn
        exact assocSet_lookup_other s.buckets c.container_name bn _ hbn
  · intro h
    simp [object_replace_metadata, copy_object, hb, h]

/-- C5 witness: replacing the metadata of the existing object `k` succeeds
and yields the object with the old body and the new metadata, and replacing
metadata of the absent object `ghost` errors with `NoSuchKey`. -/
theorem objectReplaceMetadata_contract_witness :
    (∃ s2, object_replace_metadata ⟨"us-west-2", "c"⟩ st5 "k" [("x", "y")] none
        = .ok (true, s2) ∧
      ∃ b2, assocLookup s2.buckets "c" = some b2 ∧
        assocLookup b2.objects "k"
          = some ⟨obA.body, obA.content_type, obA.etag, [("x", "y")]⟩) ∧
    object_replace_metadata ⟨"us-west-2", "c"⟩ st5 "ghost" [("x", "y")] none
      = .error S3Error.noSuchKey := by
  constructor
  · obtain ⟨s2, h1, b2, h2, h3, _⟩ :=
      (objectReplaceMetadata_contract ⟨"us-west-2", "c"⟩ st5 "k" [("x", "y")]
        bkt5 (by decide)).1 obA (by decide)
    exact ⟨s2, h1, b2, h2, h3⟩
  · exact (objectReplaceMetadata_contract ⟨"us-west-2", "c"⟩ st5 "ghost"
      [("x", "y")] bkt5 (by decide)).2 (by decide)

/-- C8: with container `a` selected and container `b` passed explicitly,
`object_list(container_name="b", fetch_metadata=True)` lists `b`'s key `k`
but enriches it through `object_info`, which reads `self.container_name` —
so the returned entry carries the size (2), ETag (`e1`) and metadata
(`m=va`) of the object stored in the selected container `a`, even though
the object actually listed lives in `b` with size 3, ETag `e2` and metadata
`m=vb`. -/
theorem objectList_metadata_from_selected_container :
    object_list cl8 st8 true none none (some "b") 10 none none
      = [ListingEntry.obj ⟨"k", some 2, some "e1", none, some [("m", "va")]⟩] ∧
    assocLookup st8.buckets "b" = some ⟨[("k", obB)]⟩ ∧
    obB.metadata = [("m", "vb")] ∧ obB.body.length = 3 ∧ obB.etag = "e2" ∧
    cl8.container_name = "a" := by
  decide

/-- C7 counterexample: the claim's "for every listing" fails for a listing
of an explicit container other than the selected one.  With container `a`
selected and container `b` (holding only key `j`, which is absent from `a`)
listed explicitly, the enrichment loop calls `object_info`, which reads
`self.container_name`: the head against `a` misses, returns Python `None`,
and the stored slot loses the entry's name — so the enriched sequence does
not have the same entries as the original listing. -/
theorem objectList_enrichment_crossContainer_counterexample :
    object_list cl7 st7 true none none (some "b") 10 none none
      = [ListingEntry.pyNone] ∧
    ¬ ((object_list cl7 st7 true none none (some "b") 10 none none).map entryName
        = (object_list cl7 st7 false none none (some "b") 10 none none).map
            entryName) := by
  decide

/-- C7 amended: for a listing of the client's selected container (no
explicit `container_name`) with no backend faults, the
`fetch_metadata=true` listing is exactly the `fetch_metadata=false` listing
with each object entry replaced in place by the per-object metadata fetch
for the same object name (`enrichStep`), and the enriched sequence carries
the same entry names in the same order — enrichment preserves listing order
and length there.  (For an explicit container other than the selected one,
the fetch targets the selected container instead and an entry absent there
degrades to a `None` slot, as the counterexample shows.) -/
theorem objectList_enrichment_preserves_order (c : S3Client) (s : S3State)
    (pf d : Option String) (ps : Nat) :
    object_list c s true pf d none ps none none
      = (object_list c s false pf d none ps none none).map (enrichStep c s) ∧
    (object_list c s true pf d none ps none none).map entryName
      = (object_list c s false pf d none ps none none).map entryName := by
  cases hb : assocLookup s.buckets c.container_name with
  | none => constructor <;> simp [object_list, list_objects_v2, hb]
  | some b =>
    have hname : ∀ ko ∈ pageContents ((rollUp pf d [] b.objects).take ps),
        entryName (ofObjectInfoOpt (object_info c s ko.1 none)) = some ko.1 := by
      intro ko hko
      obtain ⟨k, o⟩ := ko
      obtain ⟨v, hv⟩ := contents_key_lookup b pf d ps k o hko
      simp [object_info, head_object, hb, hv, ofObjectInfoOpt, entryName]
    constructor
    · simp only [object_list, list_objects_v2, hb, if_true, Bool.false_eq_true,
        if_false, List.map_append, List.map_map]
      rfl
    · simp only [object_list, list_objects_v2, hb, if_true, Bool.false_eq_true,
        if_false, List.map_append, List.map_map]
      congr 1
      refine map_congr_mem _ _ _ ?_
      intro ko hko
      exact hname ko hko

end S3Spec
